import Mathlib

/-!
A verification development for the requirement-evaluation engine of the
instagram-post-checker repository.  The TypeScript sources are embedded
shallowly:

* `src/lib/analysis-service.ts` — the rule-based analyzer (`analyzeContent`,
  `checkRequirement`, the individual checkers and `extractKeywords`);
* `cache-service.ts` — `CacheService` (`generateKey`, `get`, `set`,
  `evictOldest`), with the mutable `Map` modelled as an insertion-ordered
  association list and `Date.now()` passed explicitly;
* `ai-analysis-service.ts` — `AIAnalysisService` (`analyzeContent`,
  `validateInputs`, `buildUserPrompt`, `formatTime`, `callOpenAIWithRetry`,
  `fallbackAnalysis`), with the OpenAI provider modelled as an oracle giving
  the outcome of each attempt.

JavaScript strings are modelled as Lean `String` and the string operations
(`toLowerCase`, `trim`, `substring`, `includes`, `split`, the `/#\w+/` regex)
are re-implemented over the character list `String.data`; this matches the
ASCII inputs the services deal with (JS `toLowerCase` differs from the model
only outside ASCII, and JS indexes UTF-16 code units where the model indexes
code points).  JS numbers are modelled as `ℚ` where fractional values occur
(segment times, confidences) and as `ℕ` for counts and milliseconds; all the
concrete arithmetic in scope is exact in double precision.
-/

/-! ## JS string primitives -/

/-- ASCII case folding of one character; model of what JS `toLowerCase` does
on the ASCII range. -/
def jsLowerChar (c : Char) : Char :=
  if 65 ≤ c.toNat ∧ c.toNat ≤ 90 then Char.ofNat (c.toNat + 32) else c

/-- Model of JS `String.prototype.toLowerCase` (ASCII range). -/
def strLower (s : String) : String := String.mk (s.data.map jsLowerChar)

/-- Model of JS `str.substring(0, n)`. -/
def strTake (s : String) (n : ℕ) : String := String.mk (s.data.take n)

/-- Model of JS `String.prototype.trim`: strip whitespace from both ends. -/
def strTrim (s : String) : String :=
  String.mk (((s.data.dropWhile Char.isWhitespace).reverse.dropWhile
    Char.isWhitespace).reverse)

/-- Does the list `needle` occur at the very start of `hay`? -/
def leadsWith : List Char → List Char → Bool
  | [], _ => true
  | _ :: _, [] => false
  | a :: as, b :: bs => a == b && leadsWith as bs

/-- Does `needle` occur contiguously anywhere inside `hay`? -/
def occursIn (needle hay : List Char) : Bool :=
  leadsWith needle hay ||
    match hay with
    | [] => false
    | _ :: t => occursIn needle t

/-- Model of JS `s.includes(sub)`. -/
def strIncludes (s sub : String) : Bool := occursIn sub.data s.data

/-- Lexicographic comparison of character lists by code point; the order JS
`Array.prototype.sort()`'s default comparator puts strings in (they agree on
ASCII data; they differ only on supplementary-plane characters, where JS
compares UTF-16 code units). -/
def lexLe : List Char → List Char → Bool
  | [], _ => true
  | _ :: _, [] => false
  | a :: as, b :: bs =>
    if a.toNat < b.toNat then true
    else if b.toNat < a.toNat then false
    else lexLe as bs

/-- The string order used by `sortStrings`. -/
def strLeR (a b : String) : Prop := lexLe a.data b.data = true

instance : DecidableRel strLeR := fun a b => by unfold strLeR; infer_instance

/-- Model of the in-place JS `array.sort()` on an array of strings: the
sorted copy of the list (the mutation itself is made explicit at each call
site). -/
def sortStrings (l : List String) : List String := List.insertionSort strLeR l

/-! ## Data model (`instagram-service.ts` interfaces) -/

/-- One word of a Whisper verbose transcription (`WhisperWord`). -/
structure WhisperWord where
  word : String
  start : ℚ
  «end» : ℚ
  deriving DecidableEq

/-- One segment of a Whisper verbose transcription (`WhisperSegment`). -/
structure WhisperSegment where
  text : String
  start : ℚ
  «end» : ℚ
  words : Option (List WhisperWord) := none
  deriving DecidableEq

/-- `WhisperTranscription`. -/
structure WhisperTranscription where
  text : String
  segments : List WhisperSegment
  words : Option (List WhisperWord) := none
  deriving DecidableEq

/-- The `mediaType` discriminator of a post. -/
inductive MediaType where
  | video
  | image
  deriving DecidableEq

/-- Rendering of `mediaType` when interpolated into a template string. -/
def MediaType.render : MediaType → String
  | .video => "video"
  | .image => "image"

/-- `InstagramPostData` (`instagram-service.ts`). -/
structure InstagramPostData where
  caption : String
  mediaType : MediaType
  mediaUrl : String
  transcript : String
  timestampedTranscript : Option WhisperTranscription := none
  hashtags : List String
  altText : String
  deriving DecidableEq

/-! ## Rule-based analyzer (`analysis-service.ts`) -/

/-- `AnalysisResult` of the rule-based service. -/
structure AnalysisResult where
  requirement : String
  passed : Bool
  explanation : String
  deriving DecidableEq

/-- `AnalysisReport` of the rule-based service. -/
structure AnalysisReport where
  results : List AnalysisResult
  overallScore : ℕ
  deriving DecidableEq

/-- `ABOVE_THE_FOLD_CHAR_LIMIT`. -/
def ABOVE_THE_FOLD_CHAR_LIMIT : ℕ := 150

/-- `FIRST_SECONDS_WORD_LIMIT`. -/
def FIRST_SECONDS_WORD_LIMIT : ℕ := 50

/-- The exact value of `Math.round((p / t) * 100)` for natural `p` and
positive natural `t`: the floating-point product is exact here only up to
double rounding, but on the magnitudes the services produce (`p ≤ t` or small
multiples) the rational value `100·p/t` is what the float computes, and
`Math.round x = ⌊x + 1/2⌋`.  `(200·p + t) / (2·t)` in natural division is
that floor (proved in `jsRound100_eq_floor`). -/
def jsRound100 (p t : ℕ) : ℕ := (200 * p + t) / (2 * t)

/-- Character class `[\w#]` of the regex in `extractKeywords`. -/
def isWordOrHashChar (c : Char) : Bool :=
  (48 ≤ c.toNat ∧ c.toNat ≤ 57) || (65 ≤ c.toNat ∧ c.toNat ≤ 90) ||
    (97 ≤ c.toNat ∧ c.toNat ≤ 122) || c == '_' || c == '#'

/-- Character class `\w` (no `#`) of the regex in `checkHashtagRequirement`. -/
def isWordChar (c : Char) : Bool :=
  (48 ≤ c.toNat ∧ c.toNat ≤ 57) || (65 ≤ c.toNat ∧ c.toNat ≤ 90) ||
    (97 ≤ c.toNat ∧ c.toNat ≤ 122) || c == '_'

/-- Split on each whitespace character.  JS `split(/\s+/)` splits on runs
instead, so it produces fewer empty pieces, but every piece this model adds
is empty and `extractKeywords` filters all short tokens away, so the two
agree after filtering. -/
def splitWsAux (cur : List Char) : List Char → List (List Char)
  | [] => [cur.reverse]
  | c :: rest =>
    if c.isWhitespace then cur.reverse :: splitWsAux [] rest
    else splitWsAux (c :: cur) rest

/-- Whitespace split of a string (see `splitWsAux`). -/
def splitWs (s : String) : List String := (splitWsAux [] s.data).map String.mk

/-- The stop-word set of `extractKeywords`. -/
def stopWords : List String :=
  ["the", "a", "an", "and", "or", "but", "in", "on", "at", "to", "for", "of",
   "with", "by", "should", "must", "have", "has", "is", "are", "be", "been",
   "being", "will", "would", "above", "fold", "first", "seconds", "mention",
   "mentions", "says", "said", "caption", "description", "text", "hashtag",
   "audio", "video", "beginning", "contains", "includes"]

/-- `extractKeywords` (`analysis-service.ts`): split on whitespace, strip all
characters but `[\w#]`, lower-case, drop tokens of length ≤ 2, stop words and
empties. -/
def extractKeywords (text : String) : List String :=
  (((splitWs text).map (fun w =>
      strLower (String.mk (w.data.filter isWordOrHashChar)))).filter
    (fun w => w.data.length > 2 && !(stopWords.contains w))).filter
    (fun w => !(w == ""))

/-- First match of the regex `/#\w+/` in a string: a `#` followed by at least
one word character, taking the maximal run of word characters. -/
def hashtagMatchAux : List Char → Option (List Char)
  | [] => none
  | c :: rest =>
    if c = '#' then
      let run := rest.takeWhile isWordChar
      if run.isEmpty then hashtagMatchAux rest else some ('#' :: run)
    else hashtagMatchAux rest

/-- `requirement.match(/#\w+/)`, yielding the matched text. -/
def hashtagMatch (s : String) : Option String :=
  (hashtagMatchAux s.data).map String.mk

/-- `checkHashtagRequirement` (`analysis-service.ts`). -/
def checkHashtagRequirement (caption requirement lowerReq : String) :
    AnalysisResult :=
  match hashtagMatch requirement with
  | none =>
    let keywords := extractKeywords lowerReq
    let found := keywords.any (fun keyword =>
      strIncludes (strLower caption) ("#" ++ keyword) ||
        strIncludes (strLower caption) keyword)
    { requirement := requirement, passed := found,
      explanation :=
        if found then "Pass: Found relevant hashtag content in the caption."
        else "Fail: Could not find relevant hashtag content in the caption." }
  | some m =>
    let hashtag := strLower m
    let found := strIncludes (strLower caption) hashtag
    if strIncludes lowerReq "above the fold" || strIncludes lowerReq "beginning"
    then
      let aboveFoldText := strLower (strTake caption ABOVE_THE_FOLD_CHAR_LIMIT)
      let foundAboveFold := strIncludes aboveFoldText hashtag
      { requirement := requirement, passed := foundAboveFold,
        explanation :=
          if foundAboveFold then
            "Pass: '" ++ hashtag ++ "' found in the first 150 characters."
          else
            "Fail: '" ++ hashtag ++ "' not found in the first 150 characters." }
    else
      { requirement := requirement, passed := found,
        explanation :=
          if found then "Pass: '" ++ hashtag ++ "' found in the caption."
          else "Fail: '" ++ hashtag ++ "' not found in the caption." }

/-- `checkAboveFoldRequirement`. -/
def checkAboveFoldRequirement (caption requirement lowerReq : String) :
    AnalysisResult :=
  let keywords := extractKeywords lowerReq
  let aboveFoldText := strLower (strTake caption ABOVE_THE_FOLD_CHAR_LIMIT)
  let found := keywords.any (fun keyword => strIncludes aboveFoldText keyword)
  { requirement := requirement, passed := found,
    explanation :=
      if found then "Pass: Required content found in the first 150 characters."
      else "Fail: Required content not found in the first 150 characters." }

/-- `checkTranscriptRequirement`. -/
def checkTranscriptRequirement (transcript requirement lowerReq : String) :
    AnalysisResult :=
  let keywords := extractKeywords lowerReq
  let lowerTranscript := strLower transcript
  let found := keywords.any (fun keyword => strIncludes lowerTranscript keyword)
  { requirement := requirement, passed := found,
    explanation :=
      if found then "Pass: Required content mentioned in the audio/video."
      else "Fail: Required content not mentioned in the audio/video." }

/-- Model of JS `s.split(' ')` (split at every single space). -/
def splitSpace (s : String) : List String :=
  (splitSpaceAux [] s.data).map String.mk
where
  splitSpaceAux (cur : List Char) : List Char → List (List Char)
    | [] => [cur.reverse]
    | c :: rest =>
      if c == ' ' then cur.reverse :: splitSpaceAux [] rest
      else splitSpaceAux (c :: cur) rest

/-- JS `array.join(' ')`. -/
def joinSpace : List String → String
  | [] => ""
  | [s] => s
  | s :: rest => s ++ " " ++ joinSpace rest

/-- `checkFirstSecondsRequirement`. -/
def checkFirstSecondsRequirement (transcript requirement lowerReq : String) :
    AnalysisResult :=
  let keywords := extractKeywords lowerReq
  let firstWords :=
    strLower (joinSpace ((splitSpace transcript).take FIRST_SECONDS_WORD_LIMIT))
  let found := keywords.any (fun keyword => strIncludes firstWords keyword)
  { requirement := requirement, passed := found,
    explanation :=
      if found then "Pass: Required content mentioned in the first 10 seconds."
      else "Fail: Required content not mentioned in the first 10 seconds." }

/-- `checkCaptionRequirement`. -/
def checkCaptionRequirement (caption requirement lowerReq : String) :
    AnalysisResult :=
  let keywords := extractKeywords lowerReq
  let lowerCaption := strLower caption
  let found := keywords.any (fun keyword => strIncludes lowerCaption keyword)
  { requirement := requirement, passed := found,
    explanation :=
      if found then "Pass: Required content found in the caption."
      else "Fail: Required content not found in the caption." }

/-- `checkGeneralRequirement`. -/
def checkGeneralRequirement (caption transcript requirement lowerReq : String) :
    AnalysisResult :=
  let keywords := extractKeywords lowerReq
  let lowerCaption := strLower caption
  let lowerTranscript := strLower transcript
  let foundInCaption := keywords.any (fun keyword =>
    strIncludes lowerCaption keyword)
  let foundInTranscript := keywords.any (fun keyword =>
    strIncludes lowerTranscript keyword)
  let found := foundInCaption || foundInTranscript
  let location :=
    if foundInCaption && foundInTranscript then "caption and audio"
    else if foundInCaption then "caption"
    else if foundInTranscript then "audio"
    else ""
  { requirement := requirement, passed := found,
    explanation :=
      if found then "Pass: Required content found in the " ++ location ++ "."
      else "Fail: Required content not found in the post." }

/-- `checkRequirement` (`analysis-service.ts`): the fixed-priority dispatch
over requirement categories. -/
def checkRequirement (postData : InstagramPostData) (requirement : String) :
    AnalysisResult :=
  let lowerReq := strLower requirement
  let caption := postData.caption
  let transcript := postData.transcript
  if strIncludes lowerReq "#" || strIncludes lowerReq "hashtag" then
    checkHashtagRequirement caption requirement lowerReq
  else if strIncludes lowerReq "above the fold" ||
      strIncludes lowerReq "beginning" then
    checkAboveFoldRequirement caption requirement lowerReq
  else if strIncludes lowerReq "mention" || strIncludes lowerReq "says" ||
      strIncludes lowerReq "audio" || strIncludes lowerReq "speak" then
    checkTranscriptRequirement transcript requirement lowerReq
  else if strIncludes lowerReq "first" &&
      (strIncludes lowerReq "second" || strIncludes lowerReq "10") then
    checkFirstSecondsRequirement transcript requirement lowerReq
  else if strIncludes lowerReq "caption" || strIncludes lowerReq "description"
      || strIncludes lowerReq "text" then
    checkCaptionRequirement caption requirement lowerReq
  else
    checkGeneralRequirement caption transcript requirement lowerReq

/-- `analyzeContent` (`analysis-service.ts`): evaluate every requirement that
is non-blank after trimming and aggregate the score. -/
def analyzeContent (postData : InstagramPostData) (requirements : List String) :
    AnalysisReport :=
  let results := requirements.filterMap (fun requirement =>
    let trimmedReq := strTrim requirement
    if trimmedReq = "" then none else some (checkRequirement postData trimmedReq))
  let passedCount := (results.filter (·.passed)).length
  let overallScore :=
    if results.length > 0 then jsRound100 passedCount results.length else 0
  { results := results, overallScore := overallScore }

/-! ## Cache service (`cache-service.ts`)

The JS `Map` is modelled as an insertion-ordered association list (JS `Map`
iteration follows insertion order, which matters for eviction ties), and
every `Date.now()` read is an explicit `now` argument. -/

/-- `CacheEntry`. -/
structure CacheEntry (α : Type) where
  data : α
  createdAt : ℕ
  lastAccessed : ℕ
  expiresAt : ℕ
  deriving DecidableEq

/-- The mutable state of a `CacheService` instance. -/
structure CacheState (α : Type) where
  entries : List (String × CacheEntry α)
  maxSize : ℕ := 100
  ttlMs : ℕ := 3600000
  deriving DecidableEq

/-- `this.cache.get(key)` on the underlying `Map`. -/
def lookupEntry {α : Type} (l : List (String × CacheEntry α)) (key : String) :
    Option (CacheEntry α) :=
  (l.find? (fun p => p.1 == key)).map (·.2)

/-- `this.cache.delete(key)` on the underlying `Map`. -/
def eraseKey {α : Type} (l : List (String × CacheEntry α)) (key : String) :
    List (String × CacheEntry α) :=
  l.filter (fun p => !(p.1 == key))

/-- Overwriting the entry stored under an existing key (in-place entry
mutation / `Map.set` on a present key keeps the insertion position). -/
def updateKey {α : Type} (l : List (String × CacheEntry α)) (key : String)
    (e : CacheEntry α) : List (String × CacheEntry α) :=
  l.map (fun p => if p.1 == key then (p.1, e) else p)

/-- `this.cache.set(key, entry)` on the underlying `Map`: overwrite in place
when present, append otherwise. -/
def insertEntry {α : Type} (l : List (String × CacheEntry α)) (key : String)
    (e : CacheEntry α) : List (String × CacheEntry α) :=
  if (l.find? (fun p => p.1 == key)).isSome then updateKey l key e
  else l ++ [(key, e)]

/-- `CacheService.get`: `null` on miss, lazy delete on expiry, bump
`lastAccessed` on hit.  Returns the result with the state after the call. -/
def cacheGet {α : Type} (c : CacheState α) (key : String) (now : ℕ) :
    Option α × CacheState α :=
  match lookupEntry c.entries key with
  | none => (none, c)
  | some entry =>
    if now > entry.expiresAt then (none, { c with entries := eraseKey c.entries key })
    else (some entry.data,
      { c with entries := updateKey c.entries key { entry with lastAccessed := now } })

/-- The scanning loop of `CacheService.evictOldest`: `oldestKey` starts as
`null` and `oldestTime` starts as `Date.now()`, and each entry replaces the
current candidate only when its `lastAccessed` is strictly smaller. -/
def evictLoop {α : Type} :
    List (String × CacheEntry α) → Option String → ℕ → Option String
  | [], best, _ => best
  | (k, e) :: rest, best, bestTime =>
    if e.lastAccessed < bestTime then evictLoop rest (some k) e.lastAccessed
    else evictLoop rest best bestTime

/-- `CacheService.evictOldest`. -/
def evictOldest {α : Type} (c : CacheState α) (now : ℕ) : CacheState α :=
  match evictLoop c.entries none now with
  | none => c
  | some k => { c with entries := eraseKey c.entries k }

/-- `CacheService.set`: evict when at capacity, then insert with
`expiresAt = now + ttl`. -/
def cacheSet {α : Type} (c : CacheState α) (key : String) (v : α) (now : ℕ) :
    CacheState α :=
  let c1 := if c.entries.length ≥ c.maxSize then evictOldest c now else c
  let entry : CacheEntry α :=
    { data := v, createdAt := now, lastAccessed := now, expiresAt := now + c.ttlMs }
  { c1 with entries := insertEntry c1.entries key entry }

/-! ### `CacheService.generateKey`

`generateKey` sorts `postData.hashtags` and `requirements` **in place**
(JS `Array.prototype.sort` mutates), builds a canonical object, serializes it
with `JSON.stringify` and hashes the serialization with node's
`crypto.createHash('sha256')`.  The digest is an external library call and is
modelled as an explicit `hash` parameter; every theorem below holds for all
`hash`. -/

/-- One character of `JSON.stringify`'s string escaping. -/
def jsonEscapeChar (c : Char) : String :=
  if c == '"' then "\\\""
  else if c == '\\' then "\\\\"
  else if c == '\n' then "\\n"
  else if c == '\r' then "\\r"
  else if c == '\t' then "\\t"
  else if c == '\x08' then "\\b"
  else if c == '\x0c' then "\\f"
  else if c.toNat < 32 then
    "\\u00" ++ String.mk [hexDigit (c.toNat / 16), hexDigit (c.toNat % 16)]
  else String.singleton c
where
  hexDigit (n : ℕ) : Char :=
    if n < 10 then Char.ofNat (48 + n) else Char.ofNat (87 + n)

/-- `JSON.stringify` of a string value. -/
def jsonStr (s : String) : String :=
  "\"" ++ String.join (s.data.map jsonEscapeChar) ++ "\""

/-- `JSON.stringify` of an array of strings. -/
def jsonStrArr (l : List String) : String :=
  "[" ++ String.intercalate "," (l.map jsonStr) ++ "]"

/-- `JSON.stringify(content)` for the canonical object of `generateKey`
(fields in the literal's order: caption, transcript, mediaType, hashtags,
altText, requirements; `mediaUrl` and `timestampedTranscript` are not part of
the key). -/
def canonicalContent (caption transcript : String) (mediaType : MediaType)
    (hashtags : List String) (altText : String) (requirements : List String) :
    String :=
  "\x7b\"caption\":" ++ jsonStr caption ++
    ",\"transcript\":" ++ jsonStr transcript ++
    ",\"mediaType\":" ++ jsonStr mediaType.render ++
    ",\"hashtags\":" ++ jsonStrArr hashtags ++
    ",\"altText\":" ++ jsonStr altText ++
    ",\"requirements\":" ++ jsonStrArr requirements ++ "\x7d"

/-- `CacheService.generateKey`, with the in-place sorts made explicit: yields
the key together with the post data and requirements as the caller observes
them after the call (hashtags and requirements sorted). -/
def generateKeyS (hash : String → String) (postData : InstagramPostData)
    (requirements : List String) : String × InstagramPostData × List String :=
  let sortedTags := sortStrings postData.hashtags
  let sortedReqs := sortStrings requirements
  (hash (canonicalContent postData.caption postData.transcript
      postData.mediaType sortedTags postData.altText sortedReqs),
    { postData with hashtags := sortedTags }, sortedReqs)

/-- The returned cache key of `CacheService.generateKey`. -/
def generateKey (hash : String → String) (postData : InstagramPostData)
    (requirements : List String) : String :=
  (generateKeyS hash postData requirements).1

/-! ## AI analysis service (`ai-analysis-service.ts`) -/

/-- `AIAnalysisResult` (extends `AnalysisResult` with AI fields). -/
structure AIAnalysisResult where
  requirement : String
  passed : Bool
  explanation : String
  confidence : ℚ
  evidence : List String
  reasoning : String
  deriving DecidableEq

/-- `AIAnalysisReport`. -/
structure AIAnalysisReport where
  results : List AIAnalysisResult
  overallScore : ℕ
  aiPowered : Bool
  processingTime : ℕ
  model : String
  deriving DecidableEq

/-- The shape `AnalysisResponseSchema` parses: `results` plus
`overallAssessment`.  Nothing in the schema ties `results.length` to the
number of requirements. -/
structure AnalysisResponse where
  results : List AIAnalysisResult
  overallAssessment : String
  deriving DecidableEq

/-- The value-level checks of `AnalysisResponseSchema.parse`: every field is
present by typing, and each `confidence` must lie in `[0, 1]`
(`z.number().min(0).max(1)`). -/
def schemaValidate (r : AnalysisResponse) : Bool :=
  r.results.all (fun x => decide (0 ≤ x.confidence) && decide (x.confidence ≤ 1))

/-- `AI_CONFIG.model` under the default environment. -/
def AI_CONFIG_model : String := "gpt-4.1-mini"

/-- `AI_CONFIG.maxRetries`. -/
def AI_CONFIG_maxRetries : ℕ := 3

/-- `RATE_LIMIT_CONFIG.backoffMultiplier`. -/
def RATE_LIMIT_backoffMultiplier : ℕ := 2

/-- `RATE_LIMIT_CONFIG.maxBackoffMs`. -/
def RATE_LIMIT_maxBackoffMs : ℕ := 10000

/-- `error.message.includes('rate_limit')`. -/
def isRateLimitError (msg : String) : Bool := strIncludes msg "rate_limit"

/-- `callOpenAIWithRetry`.  The provider (OpenAI chat completion racing the
30s timeout) is an oracle from the attempt number to that attempt's outcome,
an error being carried by its message.  The result is paired with the list
of backoff delays slept between attempts.  The source's trailing
`throw error` after the linear-backoff branch is unreachable (that branch is
guarded by the same `attempt < maxRetries` test) and has no counterpart
here. -/
def callOpenAIWithRetry {α : Type} (oracle : ℕ → Except String α)
    (attempt : ℕ) : Except String α × List ℕ :=
  match oracle attempt with
  | .ok r => (.ok r, [])
  | .error e =>
    if h : AI_CONFIG_maxRetries ≤ attempt then (.error e, [])
    else if isRateLimitError e then
      let backoffMs :=
        min (1000 * RATE_LIMIT_backoffMultiplier ^ (attempt - 1))
          RATE_LIMIT_maxBackoffMs
      let rest := callOpenAIWithRetry oracle (attempt + 1)
      (rest.1, backoffMs :: rest.2)
    else
      let rest := callOpenAIWithRetry oracle (attempt + 1)
      (rest.1, 1000 * attempt :: rest.2)
termination_by AI_CONFIG_maxRetries - attempt
decreasing_by simp_wf; omega

/-- `performAIAnalysis`: retry loop, then the `!content` check, then
`JSON.parse` + `AnalysisResponseSchema.parse`.  The oracle yields `.ok none`
for a response with missing content and `.ok (some r)` for one whose JSON
parses to `r`; a rejected API call, a timeout, or unparsable JSON is an
oracle `.error` (for unparsable JSON this reaches the same catch-all handler
in the caller as a schema failure, so collapsing it loses nothing
observable). -/
def performAIAnalysis (oracle : ℕ → Except String (Option AnalysisResponse)) :
    Except String (List AIAnalysisResult) :=
  match (callOpenAIWithRetry oracle 1).1 with
  | .error e => .error e
  | .ok none => .error "No response content from OpenAI"
  | .ok (some parsedResponse) =>
    if schemaValidate parsedResponse then .ok parsedResponse.results
    else .error "Zod validation error"

/-- `validateInputs` (`AIAnalysisService`): missing post, empty requirements
list, or some requirement blank after trimming.  Yields the thrown error's
message. -/
def validateInputs (postData : Option InstagramPostData)
    (requirements : List String) : Option String :=
  if postData.isNone then some "Post data is required"
  else if requirements.isEmpty then some "At least one requirement must be provided"
  else if requirements.any (fun req => strTrim req == "") then
    some "All requirements must be non-empty strings"
  else none

/-- The per-result wrapping done by `fallbackAnalysis`. -/
def ruleResultToAI (result : AnalysisResult) : AIAnalysisResult :=
  { requirement := result.requirement, passed := result.passed,
    explanation := result.explanation, confidence := 7/10, evidence := [],
    reasoning := "Analyzed using rule-based fallback due to AI service unavailability" }

/-- `fallbackAnalysis`: run the rule-based `analyzeContent` and wrap its
report.  With a `null` post the rule-based service dereferences the post the
first time a non-blank requirement is evaluated, so the fallback itself
throws a `TypeError` then; with only blank requirements it never touches the
post and returns an empty report. -/
def fallbackAnalysis (postData : Option InstagramPostData)
    (requirements : List String) (startTime now : ℕ) :
    Except String AIAnalysisReport :=
  match postData with
  | some pd =>
    let ruleBasedReport := analyzeContent pd requirements
    .ok { results := ruleBasedReport.results.map ruleResultToAI,
          overallScore := ruleBasedReport.overallScore, aiPowered := false,
          processingTime := now - startTime, model := "rule-based-fallback" }
  | none =>
    if requirements.all (fun req => strTrim req == "") then
      .ok { results := [], overallScore := 0, aiPowered := false,
            processingTime := now - startTime, model := "rule-based-fallback" }
    else .error "TypeError: Cannot destructure property 'caption' of 'postData' as it is null"

/-- The catch-all handler of `AIAnalysisService.analyzeContent`: fall back
when enabled, otherwise rethrow wrapped in a descriptive error. -/
def handleFailure (fallbackToRulesBased : Bool)
    (postData : Option InstagramPostData) (requirements : List String)
    (cache : CacheState AIAnalysisReport) (startTime now : ℕ) (msg : String) :
    Except String AIAnalysisReport × CacheState AIAnalysisReport :=
  if fallbackToRulesBased then
    (fallbackAnalysis postData requirements startTime now, cache)
  else (.error ("AI analysis failed: " ++ msg), cache)

/-- `AIAnalysisService.analyzeContent`.  The whole body of the source method
sits in one `try` block whose catch-all is `handleFailure` — including
`validateInputs`.  `Date.now()` at entry is `startTime` and the later reads
are `now`; `checkRateLimit` only suspends the call (its module-level
counters have no observable effect on the result) and is not modelled.  The
in-place sorts done by `generateKey` are threaded through: the main path
continues with the sorted `requirements` and post object, exactly as the
source's local bindings do after the mutation. -/
def AIAnalysisService.analyzeContent (fallbackToRulesBased : Bool)
    (hash : String → String) (postData : Option InstagramPostData)
    (requirements : List String)
    (oracle : ℕ → Except String (Option AnalysisResponse))
    (cache : CacheState AIAnalysisReport) (startTime now : ℕ) :
    Except String AIAnalysisReport × CacheState AIAnalysisReport :=
  match postData with
  | none =>
    handleFailure fallbackToRulesBased none requirements cache startTime now
      "Post data is required"
  | some pd =>
    if requirements.isEmpty then
      handleFailure fallbackToRulesBased (some pd) requirements cache startTime
        now "At least one requirement must be provided"
    else if requirements.any (fun req => strTrim req == "") then
      handleFailure fallbackToRulesBased (some pd) requirements cache startTime
        now "All requirements must be non-empty strings"
    else
      let sorted := generateKeyS hash pd requirements
      let cacheKey := sorted.1
      let pd1 := sorted.2.1
      let reqs1 := sorted.2.2
      let looked := cacheGet cache cacheKey now
      match looked.1 with
      | some cachedResult =>
        (.ok { cachedResult with processingTime := now - startTime }, looked.2)
      | none =>
        match performAIAnalysis oracle with
        | .error e =>
          handleFailure fallbackToRulesBased (some pd1) reqs1 looked.2
            startTime now e
        | .ok aiResults =>
          let passedCount := (aiResults.filter (·.passed)).length
          let overallScore :=
            if reqs1.length > 0 then jsRound100 passedCount reqs1.length else 0
          let report : AIAnalysisReport :=
            { results := aiResults, overallScore := overallScore,
              aiPowered := true, processingTime := now - startTime,
              model := AI_CONFIG_model }
          (.ok report, cacheSet looked.2 cacheKey report now)

/-! ## Prompt builder (`buildUserPrompt`, `formatTime`) -/

/-- JS truncation toward zero, as `%` uses. -/
def jsTrunc (q : ℚ) : ℤ := if 0 ≤ q then ⌊q⌋ else ⌈q⌉

/-- The JS remainder `a % b`. -/
def jsMod (a b : ℚ) : ℚ := a - b * (jsTrunc (a / b) : ℚ)

/-- JS `s.padStart(2, '0')`. -/
def padStart2 (s : String) : String :=
  if s.data.length < 2 then String.mk (List.replicate (2 - s.data.length) '0') ++ s
  else s

/-- `formatTime` (`AIAnalysisService`): zero-padded `MM:SS`, where the
minutes are `Math.floor(seconds / 60)` — not wrapped at 60. -/
def formatTime (seconds : ℚ) : String :=
  padStart2 (toString ⌊seconds / 60⌋) ++ ":" ++
    padStart2 (toString ⌊jsMod seconds 60⌋)

/-- The rendering of one transcript segment inside the timestamped
transcript view. -/
def segmentLine (segment : WhisperSegment) : String :=
  "[" ++ formatTime segment.start ++ "-" ++ formatTime segment.«end» ++ "]: " ++
    strTrim segment.text

/-- JS `array.join(sep)`. -/
def strJoinSep (sep : String) : List String → String
  | [] => ""
  | [s] => s
  | s :: rest => s ++ sep ++ strJoinSep sep rest

/-- The `transcriptSection` local of `buildUserPrompt`.  The source guard is
`postData.timestampedTranscript && postData.timestampedTranscript.segments`;
a present `segments` array is truthy even when empty, so presence of
`timestampedTranscript` alone selects the timestamped branch. -/
def transcriptSection (postData : InstagramPostData) : String :=
  match postData.mediaType with
  | .video =>
    match postData.timestampedTranscript with
    | some tt =>
      let timestampedText := strJoinSep "\n" (tt.segments.map segmentLine)
      "**TRANSCRIPT (with timestamps):**\n" ++ timestampedText ++
        "\n\n**Full transcript text:** " ++
        (if postData.transcript == "" then "No transcript available"
         else postData.transcript)
    | none =>
      "**TRANSCRIPT:**\n" ++
        (if postData.transcript == "" then "No transcript available"
         else postData.transcript)
  | .image => "**TRANSCRIPT:** Not applicable for image content"

/-- The part of the user prompt before the transcript section. -/
def promptHead (postData : InstagramPostData) : String :=
  "Analyze this Instagram " ++ postData.mediaType.render ++
    " post for compliance:\n\n**CAPTION:**\n" ++
    (if postData.caption == "" then "No caption provided" else postData.caption) ++
    "\n\n**HASHTAGS:**\n" ++
    (if postData.hashtags.length > 0 then
      strJoinSep " " (postData.hashtags.map (fun tag => "#" ++ tag))
     else "No hashtags found") ++
    "\n\n**ALT TEXT (Image Description):**\n" ++
    (if postData.altText == "" then "No alt text available" else postData.altText) ++
    "\n\n"

/-- The part of the user prompt after the transcript section. -/
def promptTail (postData : InstagramPostData) (requirements : List String) :
    String :=
  "\n\n**MEDIA TYPE:** " ++ postData.mediaType.render ++
    "\n\n**REQUIREMENTS TO CHECK:**\n" ++
    strJoinSep "\n"
      (requirements.mapIdx (fun index req => toString (index + 1) ++ ". " ++ req)) ++
    "\n\nIMPORTANT: When analyzing requirements that mention timing (e.g., \"within the first X seconds\", \"at the beginning\", \"above the fold\"), pay close attention to the timestamps provided in the transcript. Use the timestamp format [MM:SS-MM:SS] to determine when specific content appears in the video.\n\nPlease analyze each requirement thoroughly and provide your assessment with evidence and reasoning. Consider all available content including caption, hashtags, alt text, and transcript with timing information."

/-- `buildUserPrompt` (`AIAnalysisService`). -/
def buildUserPrompt (postData : InstagramPostData) (requirements : List String) :
    String :=
  promptHead postData ++ transcriptSection postData ++
    promptTail postData requirements

/-! ## Auxiliary definitions used by the statements -/

/-- Does the list start with a rendered timestamp marker, `[` followed by a
digit?  Every `[MM:SS-MM:SS]` marker emitted by `segmentLine` starts this way
(`padStart2` guarantees the minute digits). -/
def startsMarker : List Char → Bool
  | c :: d :: _ => c == '[' && d.isDigit
  | _ => false

/-- Does a `[`-digit timestamp marker occur anywhere in the list? -/
def hasMarkerL : List Char → Bool
  | [] => false
  | c :: t => startsMarker (c :: t) || hasMarkerL t

/-- Does a `[`-digit timestamp marker occur anywhere in the string? -/
def hasTimestampMarker (s : String) : Bool := hasMarkerL s.data

/-- The backoff the spec prescribes after a failed attempt `attempt` whose
error message is `e`: exponential capped at 10s for provider rate limits,
linear otherwise. -/
def retryDelay (e : String) (attempt : ℕ) : ℕ :=
  if isRateLimitError e then min (1000 * 2 ^ (attempt - 1)) 10000
  else 1000 * attempt

/-- The behaviour the spec prescribes for the retry wrapper, as a function of
the outcomes of the (at most) three attempts. -/
def expectedRetryOutcome {α : Type} :
    Except String α → Except String α → Except String α →
      Except String α × List ℕ
  | .ok r, _, _ => (.ok r, [])
  | .error e1, .ok r, _ => (.ok r, [retryDelay e1 1])
  | .error e1, .error e2, .ok r => (.ok r, [retryDelay e1 1, retryDelay e2 2])
  | .error e1, .error e2, .error e3 =>
    (.error e3, [retryDelay e1 1, retryDelay e2 2])

/-- The report the AI main path produces from the validated model results:
the score denominator is the number of input requirements, not the number of
results. -/
def aiReport (results : List AIAnalysisResult) (requirements : List String)
    (processingTime : ℕ) : AIAnalysisReport :=
  { results := results,
    overallScore := jsRound100 ((results.filter (·.passed)).length)
      requirements.length,
    aiPowered := true, processingTime := processingTime,
    model := AI_CONFIG_model }

/-- A cache in its initial state (default `maxSize`/`ttlMinutes`). -/
def emptyCache : CacheState AIAnalysisReport :=
  { entries := [], maxSize := 100, ttlMs := 3600000 }

/-- A concrete post (the spec's §8 scenario). -/
def samplePost : InstagramPostData :=
  { caption := "#ad This is a sponsored post about fitness.",
    mediaType := .video, mediaUrl := "https://example.com/sample-video.mp4",
    transcript := "In this video, I mention my partnership with the brand.",
    timestampedTranscript := none,
    hashtags := ["ad", "sponsored", "fitness"], altText := "" }

/-- Post for the above-the-fold pass case: `#ad` at position 0 of a 204-char
caption. -/
def post8a : InstagramPostData :=
  { caption := "#ad " ++ String.mk (List.replicate 200 'x'),
    mediaType := .image, mediaUrl := "", transcript := "",
    hashtags := [], altText := "" }

/-- Post for the above-the-fold fail case: `#ad` starting at character
position 160. -/
def post8b : InstagramPostData :=
  { caption := String.mk (List.replicate 160 'x') ++ "#ad",
    mediaType := .image, mediaUrl := "", transcript := "",
    hashtags := [], altText := "" }

/-- A schema-valid model response with three passing results, more than the
single requirement it will be paired with. -/
def overResponse : AnalysisResponse :=
  { results :=
      [{ requirement := "Must include #ad hashtag", passed := true,
         explanation := "found", confidence := 1, evidence := ["#ad"],
         reasoning := "present" },
       { requirement := "extra result 1", passed := true,
         explanation := "extra", confidence := 0, evidence := [],
         reasoning := "extra" },
       { requirement := "extra result 2", passed := true,
         explanation := "extra", confidence := 1, evidence := [],
         reasoning := "extra" }],
    overallAssessment := "ok" }

/-- A schema-valid single-result model response. -/
def okResponse : AnalysisResponse :=
  { results :=
      [{ requirement := "Must include #ad hashtag", passed := true,
         explanation := "found", confidence := 1, evidence := ["#ad"],
         reasoning := "present" }],
    overallAssessment := "ok" }

/-- A concrete image post. -/
def pdImg : InstagramPostData :=
  { caption := "hello", mediaType := .image, mediaUrl := "http://e/x.jpg",
    transcript := "", hashtags := ["ad"], altText := "alt" }

/-- A concrete video post with a timestamped transcript of two segments. -/
def pdVid : InstagramPostData :=
  { caption := "#ad hi", mediaType := .video, mediaUrl := "http://e/x.mp4",
    transcript := "hello there world",
    timestampedTranscript := some
      { text := "hello there world",
        segments :=
          [{ text := " hello there ", start := 0, «end» := 3661 },
           { text := "world", start := 75, «end» := 80 }] },
    hashtags := [], altText := "" }

/-- A concrete video post without timestamp data. -/
def pdVidNoTs : InstagramPostData :=
  { caption := "#ad hi", mediaType := .video, mediaUrl := "http://e/x.mp4",
    transcript := "plain words only", timestampedTranscript := none,
    hashtags := [], altText := "" }

/-- The `maxSize`-violation scenario for the cache: one entry, capacity one,
`set` called in the same millisecond the entry was last accessed. -/
def cex9 : CacheState ℕ :=
  { entries := [("a", { data := 0, createdAt := 5, lastAccessed := 5, expiresAt := 105 })],
    maxSize := 1, ttlMs := 100 }

/-! ## String lemmas -/

theorem leadsWith_iff : ∀ (n h : List Char), leadsWith n h = true ↔ n <+: h
  | [], h => by simp [leadsWith]
  | _ :: _, [] => by simp [leadsWith]
  | a :: as, b :: bs => by
    simp [leadsWith, leadsWith_iff as bs, List.cons_prefix_cons]

theorem occursIn_iff : ∀ (n h : List Char), occursIn n h = true ↔ n <:+: h
  | n, [] => by cases n <;> simp [occursIn, leadsWith]
  | n, c :: t => by
    rw [occursIn]
    simp [leadsWith_iff, occursIn_iff n t, List.infix_cons_iff]

theorem strIncludes_iff (s sub : String) :
    strIncludes s sub = true ↔ sub.data <:+: s.data :=
  occursIn_iff sub.data s.data

/-- A needle starting with a character that does not occur in `a` can only
occur in the right part of `a ++ b`. -/
theorem infix_append_right_of_head_free {c₀ : Char} {n a b : List Char}
    (hfree : c₀ ∉ a) (h : (c₀ :: n) <:+: a ++ b) : (c₀ :: n) <:+: b := by
  induction a with
  | nil => simpa using h
  | cons x a ih =>
    rw [List.cons_append, List.infix_cons_iff] at h
    rcases h with h | h
    · rcases h with ⟨t, ht⟩
      apply absurd _ hfree
      have : c₀ = x := by
        have := congrArg (fun l => l.head?) ht
        simpa using this
      simp [this]
    · exact ih (fun hc => hfree (List.mem_cons_of_mem x hc)) h

/-! ## String-sort lemmas -/

theorem lexLe_total : ∀ a b : List Char, lexLe a b = true ∨ lexLe b a = true
  | [], _ => Or.inl rfl
  | _ :: _, [] => Or.inr rfl
  | a :: as, b :: bs => by
    rcases Nat.lt_trichotomy a.toNat b.toNat with h | h | h
    · left; simp [lexLe, h]
    · have : ¬ a.toNat < b.toNat := by omega
      have h2 : ¬ b.toNat < a.toNat := by omega
      rcases lexLe_total as bs with ih | ih
      · left; simp [lexLe, this, h2, ih]
      · right; simp [lexLe, this, h2, ih]
    · right; simp [lexLe, h]

theorem lexLe_trans : ∀ a b c : List Char,
    lexLe a b = true → lexLe b c = true → lexLe a c = true
  | [], _, _, _, _ => rfl
  | _ :: _, [], _, h, _ => by simp [lexLe] at h
  | _ :: _, _ :: _, [], _, h => by simp [lexLe] at h
  | a :: as, b :: bs, c :: cs, h1, h2 => by
    simp only [lexLe] at h1 h2 ⊢
    split at h1
    · rename_i hab
      split at h2
      · rename_i hbc
        have : a.toNat < c.toNat := by omega
        simp [this]
      · split at h2
        · simp at h2
        · rename_i hcb hbc
          have : a.toNat < c.toNat := by omega
          simp [this]
    · split at h1
      · simp at h1
      · rename_i hba hab
        split at h2
        · rename_i hbc
          have : a.toNat < c.toNat := by omega
          simp [this]
        · split at h2
          · simp at h2
          · rename_i hcb hbc
            have hac : ¬ a.toNat < c.toNat := by omega
            have hca : ¬ c.toNat < a.toNat := by omega
            simp [hac, hca]
            exact lexLe_trans as bs cs h1 h2

theorem lexLe_antisymm : ∀ a b : List Char,
    lexLe a b = true → lexLe b a = true → a = b
  | [], [], _, _ => rfl
  | [], _ :: _, _, h => by simp [lexLe] at h
  | _ :: _, [], h, _ => by simp [lexLe] at h
  | a :: as, b :: bs, h1, h2 => by
    simp only [lexLe] at h1 h2
    by_cases hab : a.toNat < b.toNat
    · rw [if_neg (by omega), if_pos hab] at h2
      exact absurd h2 (by simp)
    · by_cases hba : b.toNat < a.toNat
      · rw [if_neg hab, if_pos hba] at h1
        exact absurd h1 (by simp)
      · rw [if_neg hab, if_neg hba] at h1
        rw [if_neg hba, if_neg hab] at h2
        have hn : a.toNat = b.toNat := by omega
        have hchar : a = b := Char.ext (UInt32.ext hn)
        rw [hchar, lexLe_antisymm as bs h1 h2]

instance : IsTotal String strLeR := ⟨fun a b => lexLe_total a.data b.data⟩

instance : IsTrans String strLeR :=
  ⟨fun a b c h1 h2 => lexLe_trans a.data b.data c.data h1 h2⟩

instance : IsAntisymm String strLeR := by
  refine ⟨fun a b h1 h2 => ?_⟩
  cases a; cases b
  exact congrArg String.mk (lexLe_antisymm _ _ h1 h2)

theorem sortStrings_perm (l : List String) : (sortStrings l).Perm l :=
  List.perm_insertionSort strLeR l

theorem sortStrings_sorted (l : List String) : List.Sorted strLeR (sortStrings l) :=
  List.sorted_insertionSort strLeR l

theorem sortStrings_congr {l₁ l₂ : List String} (h : l₁.Perm l₂) :
    sortStrings l₁ = sortStrings l₂ :=
  List.eq_of_perm_of_sorted
    ((sortStrings_perm l₁).trans (h.trans (sortStrings_perm l₂).symm))
    (sortStrings_sorted l₁) (sortStrings_sorted l₂)

/-! ## Rounding lemma -/

/-- `jsRound100 p t` is `⌊100·p/t + 1/2⌋`, i.e. `Math.round((p / t) * 100)`. -/
theorem jsRound100_eq_floor (p t : ℕ) (h : 0 < t) :
    (jsRound100 p t : ℤ) = ⌊(100 * (p : ℚ) / t) + 1 / 2⌋ := by
  have ht : (t : ℚ) ≠ 0 := by positivity
  have h2 : (100 * (p : ℚ) / t) + 1 / 2 =
      (((200 * p + t : ℕ) : ℤ) : ℚ) / ((2 * t : ℕ) : ℚ) := by
    push_cast
    field_simp
    ring
  rw [h2, Rat.floor_intCast_div_natCast, jsRound100]
  push_cast [Int.ofNat_div]
  norm_num

/-! ## Marker and join lemmas -/

theorem startsMarker_cons_ne {x : Char} (l : List Char) (hx : ¬ x = '[') :
    startsMarker (x :: l) = false := by
  cases l <;> simp [startsMarker, hx]

theorem hasMarkerL_append_of_free {a b : List Char} (hfree : '[' ∉ a) :
    hasMarkerL (a ++ b) = hasMarkerL b := by
  induction a with
  | nil => rfl
  | cons x a ih =>
    have hx : ¬ x = '[' := fun h => hfree (by simp [h])
    rw [List.cons_append, hasMarkerL, startsMarker_cons_ne _ hx, Bool.false_or]
    exact ih (fun h => hfree (List.mem_cons_of_mem _ h))

theorem mem_strJoinSep_infix (sep : String) :
    ∀ (l : List String), ∀ s ∈ l, s.data <:+: (strJoinSep sep l).data
  | [], s, h => by simp at h
  | [x], s, h => by
    simp at h
    subst h
    exact List.infix_refl _
  | x :: y :: rest, s, h => by
    show s.data <:+: (x ++ sep ++ strJoinSep sep (y :: rest)).data
    rcases List.mem_cons.mp h with rfl | h2
    · simp only [String.data_append, List.append_assoc]
      exact (List.prefix_append s.data _).isInfix
    · have ih := mem_strJoinSep_infix sep (y :: rest) s h2
      simp only [String.data_append, List.append_assoc]
      exact ih.trans (((List.suffix_append sep.data _).trans
        (List.suffix_append x.data _)).isInfix)

/-- A needle that occurs inside the middle part of a three-part
concatenation occurs in the whole. -/
theorem strIncludes_of_middle {pre mid post needle : String}
    (h : needle.data <:+: mid.data) :
    strIncludes (pre ++ mid ++ post) needle = true := by
  apply (strIncludes_iff _ _).mpr
  simp only [String.data_append, List.append_assoc]
  exact ((h.trans (List.prefix_append mid.data post.data).isInfix).trans
    (List.suffix_append pre.data _).isInfix)

/-! ## Cache lemmas -/

theorem lookupEntry_append_absent {α : Type} (l : List (String × CacheEntry α))
    (key : String) (e : CacheEntry α)
    (h : l.find? (fun p => p.1 == key) = none) :
    lookupEntry (l ++ [(key, e)]) key = some e := by
  unfold lookupEntry
  rw [List.find?_append, h]
  simp [List.find?]

theorem lookupEntry_updateKey_present {α : Type} :
    ∀ (l : List (String × CacheEntry α)) (key : String) (e : CacheEntry α),
    (l.find? (fun p => p.1 == key)).isSome →
    lookupEntry (updateKey l key e) key = some e
  | [], key, e, h => by simp [List.find?] at h
  | p :: l, key, e, h => by
    by_cases hk : (p.1 == key) = true
    · simp [updateKey, lookupEntry, List.find?, hk]
    · have hk2 : (p.1 == key) = false := by simpa using hk
      have h2 : (List.find? (fun q => q.1 == key) l).isSome := by
        rw [List.find?_cons, hk2] at h
        exact h
      have ih := lookupEntry_updateKey_present l key e h2
      unfold lookupEntry updateKey at ih ⊢
      rw [List.map_cons, if_neg hk, List.find?_cons, hk2]
      exact ih

theorem lookup_insertEntry {α : Type} (l : List (String × CacheEntry α))
    (key : String) (e : CacheEntry α) :
    lookupEntry (insertEntry l key e) key = some e := by
  by_cases h : (l.find? (fun p => p.1 == key)).isSome
  · rw [insertEntry, if_pos h]
    exact lookupEntry_updateKey_present l key e h
  · have h2 : l.find? (fun p => p.1 == key) = none := by
      cases hf : l.find? (fun p => p.1 == key)
      · rfl
      · simp [hf] at h
    rw [insertEntry, if_neg h]
    exact lookupEntry_append_absent l key e h2

theorem evictOldest_ttl {α : Type} (c : CacheState α) (now : ℕ) :
    (evictOldest c now).ttlMs = c.ttlMs := by
  unfold evictOldest
  cases evictLoop c.entries none now <;> rfl

theorem cacheSet_entries {α : Type} (c : CacheState α) (key : String) (v : α)
    (now : ℕ) :
    (cacheSet c key v now).entries =
      insertEntry
        (if c.entries.length ≥ c.maxSize then (evictOldest c now).entries
         else c.entries)
        key { data := v, createdAt := now, lastAccessed := now,
              expiresAt := now + c.ttlMs } := by
  unfold cacheSet
  split <;> rfl

theorem cacheGet_after_set {α : Type} (c : CacheState α) (key : String) (v : α)
    (now t : ℕ) (h : ¬ t > now + c.ttlMs) :
    (cacheGet (cacheSet c key v now) key t).1 = some v := by
  have hl : lookupEntry (cacheSet c key v now).entries key =
      some { data := v, createdAt := now, lastAccessed := now,
             expiresAt := now + c.ttlMs } := by
    rw [cacheSet_entries]
    exact lookup_insertEntry _ _ _
  unfold cacheGet
  rw [hl]
  simp [h]

theorem cacheGet_ttl {α : Type} (c : CacheState α) (key : String) (now : ℕ) :
    ((cacheGet c key now).2).ttlMs = c.ttlMs := by
  unfold cacheGet
  cases lookupEntry c.entries key
  · rfl
  · dsimp only
    split <;> rfl

theorem evictLoop_stay {α : Type} :
    ∀ (l : List (String × CacheEntry α)) (best : Option String) (bt : ℕ),
    (∀ p ∈ l, ¬ p.2.lastAccessed < bt) → evictLoop l best bt = best
  | [], _, _, _ => rfl
  | (k, e) :: rest, best, bt, h => by
    rw [evictLoop, if_neg (h (k, e) (by simp))]
    exact evictLoop_stay rest best bt (fun p hp => h p (by simp [hp]))

theorem evictLoop_found {α : Type} :
    ∀ (l : List (String × CacheEntry α)) (best : Option String) (bt : ℕ),
    (∃ p ∈ l, p.2.lastAccessed < bt) →
    ∃ k e, evictLoop l best bt = some k ∧ (k, e) ∈ l ∧ e.lastAccessed < bt ∧
      (∀ q ∈ l, q.2.lastAccessed < bt → e.lastAccessed ≤ q.2.lastAccessed)
  | [], _, _, h => by simp at h
  | (k0, e0) :: rest, best, bt, h => by
    by_cases h0 : e0.lastAccessed < bt
    · rw [evictLoop, if_pos h0]
      by_cases hrest : ∃ p ∈ rest, p.2.lastAccessed < e0.lastAccessed
      · obtain ⟨k, e, heq, hmem, hlt, hmin⟩ :=
          evictLoop_found rest (some k0) e0.lastAccessed hrest
        refine ⟨k, e, heq, List.mem_cons_of_mem _ hmem, lt_trans hlt h0, ?_⟩
        intro q hq hqlt
        rcases List.mem_cons.mp hq with rfl | hq2
        · exact le_of_lt hlt
        · by_cases hqe : q.2.lastAccessed < e0.lastAccessed
          · exact hmin q hq2 hqe
          · exact le_trans (le_of_lt hlt) (not_lt.mp hqe)
      · push_neg at hrest
        rw [evictLoop_stay rest (some k0) e0.lastAccessed
          (fun p hp => not_lt.mpr (hrest p hp))]
        refine ⟨k0, e0, rfl, List.mem_cons_self _ _, h0, ?_⟩
        intro q hq _
        rcases List.mem_cons.mp hq with rfl | hq2
        · exact le_refl _
        · exact hrest q hq2
    · rw [evictLoop, if_neg h0]
      have h2 : ∃ p ∈ rest, p.2.lastAccessed < bt := by
        obtain ⟨p, hp, hl⟩ := h
        rcases List.mem_cons.mp hp with rfl | hp2
        · exact absurd hl h0
        · exact ⟨p, hp2, hl⟩
      obtain ⟨k, e, heq, hmem, hlt, hmin⟩ := evictLoop_found rest best bt h2
      refine ⟨k, e, heq, List.mem_cons_of_mem _ hmem, hlt, ?_⟩
      intro q hq hqlt
      rcases List.mem_cons.mp hq with rfl | hq2
      · exact absurd hqlt h0
      · exact hmin q hq2 hqlt

theorem eraseKey_length_lt {α : Type} {l : List (String × CacheEntry α)}
    {k : String} {e : CacheEntry α} (h : (k, e) ∈ l) :
    (eraseKey l k).length < l.length :=
  List.length_filter_lt_length_iff_exists.mpr ⟨(k, e), h, by simp⟩

theorem insertEntry_length_le {α : Type} (l : List (String × CacheEntry α))
    (key : String) (e : CacheEntry α) :
    (insertEntry l key e).length ≤ l.length + 1 := by
  unfold insertEntry
  split
  · simp [updateKey]
  · simp

/-! ## Further helper lemmas -/

theorem hashtagMatchAux_mem : ∀ (l t : List Char),
    hashtagMatchAux l = some t → '#' ∈ l
  | [], _, h => by simp [hashtagMatchAux] at h
  | c :: rest, t, h => by
    by_cases hc : c = '#'
    · simp [hc]
    · rw [hashtagMatchAux, if_neg hc] at h
      exact List.mem_cons_of_mem _ (hashtagMatchAux_mem rest t h)

theorem lower_contains_hash {s : String} (h : '#' ∈ s.data) :
    strIncludes (strLower s) "#" = true := by
  apply (strIncludes_iff _ _).mpr
  have h2 : '#' ∈ s.data.map jsLowerChar :=
    List.mem_map.mpr ⟨'#', h, by decide⟩
  obtain ⟨l1, l2, hsplit⟩ := List.append_of_mem h2
  show String.data "#" <:+: (strLower s).data
  rw [show (strLower s).data = s.data.map jsLowerChar from rfl, hsplit]
  exact ⟨l1, l2, by simp⟩

theorem filterMap_blank (f : String → AnalysisResult) :
    ∀ (l : List String),
    (l.filterMap (fun r =>
        if strTrim r = "" then none else some (f (strTrim r))))
      = (l.filter (fun r => !(strTrim r == ""))).map (fun r => f (strTrim r))
  | [] => rfl
  | r :: l => by
    by_cases h : strTrim r = ""
    · simp [List.filterMap_cons, filterMap_blank f l, h]
    · simp [List.filterMap_cons, filterMap_blank f l, h]

theorem analyzeContent_results (postData : InstagramPostData)
    (requirements : List String) :
    (analyzeContent postData requirements).results
      = (requirements.filter (fun r => !(strTrim r == ""))).map
          (fun r => checkRequirement postData (strTrim r)) := by
  unfold analyzeContent
  exact filterMap_blank (checkRequirement postData) requirements

/-! ## Claim C2 -/

/-- C2: `CacheService.generateKey` yields the same cache key for any
permutation of the requirements list and any permutation of the hashtags
array (the other keyed fields being equal), for every digest function. -/
theorem C2_generateKey_order_independence
    (hash : String → String) (pd1 pd2 : InstagramPostData)
    (reqs1 reqs2 : List String)
    (hcap : pd1.caption = pd2.caption) (htr : pd1.transcript = pd2.transcript)
    (hmt : pd1.mediaType = pd2.mediaType) (halt : pd1.altText = pd2.altText)
    (hht : pd1.hashtags.Perm pd2.hashtags) (hreq : reqs1.Perm reqs2) :
    generateKey hash pd1 reqs1 = generateKey hash pd2 reqs2 := by
  unfold generateKey generateKeyS
  simp only
  rw [hcap, htr, hmt, halt, sortStrings_congr hht, sortStrings_congr hreq]

/-- Witness for C2 at concrete inputs (note the differing `mediaUrl`, which
is not part of the key). -/
theorem C2_generateKey_order_independence_witness :
    generateKey (fun s => s)
        { caption := "c", mediaType := .video, mediaUrl := "u1",
          transcript := "t", hashtags := ["b", "a"], altText := "x" }
        ["y", "x"]
      = generateKey (fun s => s)
        { caption := "c", mediaType := .video, mediaUrl := "u2",
          transcript := "t", hashtags := ["a", "b"], altText := "x" }
        ["x", "y"] :=
  C2_generateKey_order_independence (fun s => s) _ _ _ _ rfl rfl rfl rfl
    (by decide) (by decide)

/-! ## Claim C3 -/

/-- C3 counterexample: `generateKey` does *not* leave the caller's post and
requirements unchanged — the in-place `Array.prototype.sort` calls reorder
the caller's `hashtags` and `requirements` arrays. -/
theorem C3_counterexample :
    (generateKeyS (fun s => s)
        { caption := "c", mediaType := .video, mediaUrl := "u",
          transcript := "t", hashtags := ["b", "a"], altText := "x" }
        ["r2", "r1"]).2.1.hashtags = ["a", "b"] ∧
    (["a", "b"] : List String) ≠ ["b", "a"] ∧
    (generateKeyS (fun s => s)
        { caption := "c", mediaType := .video, mediaUrl := "u",
          transcript := "t", hashtags := ["b", "a"], altText := "x" }
        ["r2", "r1"]).2.2 = ["r1", "r2"] ∧
    (["r1", "r2"] : List String) ≠ ["r2", "r1"] := by
  decide

/-- C3 (amended): `generateKey` leaves every field of the caller's post and
the requirements unchanged **except** that `postData.hashtags` and
`requirements` are sorted in place: afterwards they are sorted permutations
of their previous contents. -/
theorem C3_generateKey_mutation (hash : String → String)
    (postData : InstagramPostData) (requirements : List String) :
    (generateKeyS hash postData requirements).2.1.caption = postData.caption ∧
    (generateKeyS hash postData requirements).2.1.mediaType = postData.mediaType ∧
    (generateKeyS hash postData requirements).2.1.mediaUrl = postData.mediaUrl ∧
    (generateKeyS hash postData requirements).2.1.transcript = postData.transcript ∧
    (generateKeyS hash postData requirements).2.1.timestampedTranscript
      = postData.timestampedTranscript ∧
    (generateKeyS hash postData requirements).2.1.altText = postData.altText ∧
    (generateKeyS hash postData requirements).2.1.hashtags.Perm postData.hashtags ∧
    List.Sorted strLeR (generateKeyS hash postData requirements).2.1.hashtags ∧
    (generateKeyS hash postData requirements).2.2.Perm requirements ∧
    List.Sorted strLeR (generateKeyS hash postData requirements).2.2 :=
  ⟨rfl, rfl, rfl, rfl, rfl, rfl, sortStrings_perm _, sortStrings_sorted _,
    sortStrings_perm _, sortStrings_sorted _⟩

/-! ## Claim C4 -/

/-- C4: the rule-based `analyzeContent` produces exactly one result per
requirement that is non-blank after trimming, its score is
`round(100 · passed / total)` over those results (`0` when none remain), and
`["Valid", "", "   ", "Another"]` yields exactly 2 results. -/
theorem C4_blank_filter_and_score (postData : InstagramPostData)
    (requirements : List String) :
    (analyzeContent postData requirements).results.length
        = (requirements.filter (fun r => !(strTrim r == ""))).length ∧
    ((analyzeContent postData requirements).results.length = 0 →
      (analyzeContent postData requirements).overallScore = 0) ∧
    (0 < (analyzeContent postData requirements).results.length →
      ((analyzeContent postData requirements).overallScore : ℤ) =
        ⌊(100 * ((((analyzeContent postData requirements).results.filter
              (·.passed)).length : ℚ)) /
            (((analyzeContent postData requirements).results.length : ℚ))) +
          1 / 2⌋) ∧
    (analyzeContent postData ["Valid", "", "   ", "Another"]).results.length = 2 := by
  refine ⟨?_, ?_, ?_, ?_⟩
  · rw [analyzeContent_results]
    simp
  · intro h
    unfold analyzeContent
    simp only []
    rw [if_neg (by unfold analyzeContent at h; simpa using h)]
  · intro h
    show ((analyzeContent postData requirements).overallScore : ℤ) = _
    unfold analyzeContent at h ⊢
    simp only [] at h ⊢
    rw [if_pos h]
    exact jsRound100_eq_floor _ _ h
  · rw [analyzeContent_results]
    simp only [List.length_map]
    decide

/-- Witness for C4 at a concrete post and requirement list. -/
theorem C4_blank_filter_and_score_witness :
    ((analyzeContent samplePost ["Valid", "", "   ", "Another"]).overallScore : ℤ) =
      ⌊(100 * ((((analyzeContent samplePost
            ["Valid", "", "   ", "Another"]).results.filter
            (·.passed)).length : ℚ)) /
          (((analyzeContent samplePost
            ["Valid", "", "   ", "Another"]).results.length : ℚ))) + 1 / 2⌋ ∧
    (analyzeContent samplePost ["Valid", "", "   ", "Another"]).results.length = 2 :=
  ⟨(C4_blank_filter_and_score samplePost ["Valid", "", "   ", "Another"]).2.2.1
      (by decide),
    (C4_blank_filter_and_score samplePost ["Valid", "", "   ", "Another"]).2.2.2⟩

/-! ## Claim C9 -/

/-- C9 counterexample: with the store at capacity (`maxSize = 1`) and the
resident entry's `lastAccessed` equal to the current time, `set` evicts
nothing (the scan starts from `oldestTime = Date.now()` and uses a strict
comparison), so the store grows to 2 > `maxSize` entries. -/
theorem C9_counterexample :
    cex9.entries.length = cex9.maxSize ∧
    (cacheSet cex9 "b" 7 5).entries.length = 2 ∧
    cex9.maxSize < 2 := by
  decide

/-- C9 (amended): when `set` is called with the store at capacity, an entry
is evicted only if some entry has `lastAccessed` strictly below the current
time; in that case the evicted key is one holding the least `lastAccessed`
of the store and the store stays within `maxSize`; the fresh entry is always
inserted with `expiresAt = now + ttl`.  Without such an entry (all
`lastAccessed ≥ now`) nothing is evicted and the store can exceed
`maxSize` (see the counterexample). -/
theorem C9_lru_eviction {α : Type} (c : CacheState α) (key : String) (v : α)
    (now : ℕ) (hcap : c.entries.length ≤ c.maxSize) :
    ((∃ p ∈ c.entries, p.2.lastAccessed < now) ∨ c.entries.length < c.maxSize →
      (cacheSet c key v now).entries.length ≤ c.maxSize) ∧
    lookupEntry (cacheSet c key v now).entries key =
      some { data := v, createdAt := now, lastAccessed := now,
             expiresAt := now + c.ttlMs } ∧
    (c.maxSize ≤ c.entries.length →
      (∃ p ∈ c.entries, p.2.lastAccessed < now) →
      ∃ k e, evictLoop c.entries none now = some k ∧ (k, e) ∈ c.entries ∧
        e.lastAccessed < now ∧
        ∀ q ∈ c.entries, e.lastAccessed ≤ q.2.lastAccessed) := by
  refine ⟨?_, ?_, ?_⟩
  · intro h
    rw [cacheSet_entries]
    by_cases hge : c.entries.length ≥ c.maxSize
    · have heqcap : c.entries.length = c.maxSize := le_antisymm hcap hge
      have hcand : ∃ p ∈ c.entries, p.2.lastAccessed < now := by
        rcases h with h | h
        · exact h
        · omega
      obtain ⟨k, e, heq, hmem, _, _⟩ := evictLoop_found c.entries none now hcand
      rw [if_pos hge]
      have h1 : (evictOldest c now).entries.length < c.entries.length := by
        unfold evictOldest
        rw [heq]
        exact eraseKey_length_lt hmem
      have h2 := insertEntry_length_le (evictOldest c now).entries key
        { data := v, createdAt := now, lastAccessed := now,
          expiresAt := now + c.ttlMs }
      omega
    · rw [if_neg hge]
      have h2 := insertEntry_length_le c.entries key
        { data := v, createdAt := now, lastAccessed := now,
          expiresAt := now + c.ttlMs }
      omega
  · rw [cacheSet_entries]
    exact lookup_insertEntry _ _ _
  · intro _ hcand
    obtain ⟨k, e, heq, hmem, hlt, hmin⟩ := evictLoop_found c.entries none now hcand
    refine ⟨k, e, heq, hmem, hlt, ?_⟩
    intro q hq
    by_cases hql : q.2.lastAccessed < now
    · exact hmin q hq hql
    · omega

/-- Witness for C9 (amended) at a concrete store with an evictable entry. -/
theorem C9_lru_eviction_witness :
    lookupEntry
        (cacheSet
          ({ entries := [("a", { data := 1, createdAt := 0, lastAccessed := 0,
                                 expiresAt := 100 })],
             maxSize := 1, ttlMs := 100 } : CacheState ℕ) "b" 7 50).entries "b"
      = some { data := 7, createdAt := 50, lastAccessed := 50,
               expiresAt := 150 } :=
  (C9_lru_eviction
      ({ entries := [("a", { data := 1, createdAt := 0, lastAccessed := 0,
                             expiresAt := 100 })],
         maxSize := 1, ttlMs := 100 } : CacheState ℕ) "b" 7 50
      (by decide)).2.1

/-! ## Claim C7 -/

/-- C7: the retry wrapper makes at most 3 attempts (its outcome only depends
on the first three oracle answers), sleeps the rate-limit exponential backoff
`min(1000·2^(attempt-1), 10000)` or the linear backoff `1000·attempt`
between attempts according to the error class, and surfaces the third
attempt's error after three failures — as captured by
`expectedRetryOutcome`. -/
theorem C7_retry_backoff {α : Type} (oracle : ℕ → Except String α) :
    callOpenAIWithRetry oracle 1 =
      expectedRetryOutcome (oracle 1) (oracle 2) (oracle 3) := by
  cases h1 : oracle 1 with
  | ok r =>
    simp [callOpenAIWithRetry, h1, expectedRetryOutcome]
  | error e1 =>
    cases h2 : oracle 2 with
    | ok r =>
      simp [callOpenAIWithRetry, h1, h2, expectedRetryOutcome, retryDelay,
        AI_CONFIG_maxRetries, RATE_LIMIT_backoffMultiplier,
        RATE_LIMIT_maxBackoffMs]
    | error e2 =>
      cases h3 : oracle 3 with
      | ok r =>
        simp [callOpenAIWithRetry, h1, h2, h3, expectedRetryOutcome,
          retryDelay, AI_CONFIG_maxRetries, RATE_LIMIT_backoffMultiplier,
          RATE_LIMIT_maxBackoffMs]
      | error e3 =>
        simp [callOpenAIWithRetry, h1, h2, h3, expectedRetryOutcome,
          retryDelay, AI_CONFIG_maxRetries, RATE_LIMIT_backoffMultiplier,
          RATE_LIMIT_maxBackoffMs]

/-! ## Claim C8 -/

/-- C8: for a requirement with a literal `#token` and "above the fold" or
"beginning", the rule-based check passes exactly when the hashtag occurs
case-insensitively within the first 150 characters of the caption; with
caption `"#ad " + "x".repeat(200)` the requirement
`"#ad must be above the fold"` passes, and with `#ad` moved to character
position 160 it fails. -/
theorem C8_hashtag_above_the_fold :
    (∀ (postData : InstagramPostData) (requirement tag : String),
      hashtagMatch requirement = some tag →
      (strIncludes (strLower requirement) "above the fold" = true ∨
        strIncludes (strLower requirement) "beginning" = true) →
      (checkRequirement postData requirement).passed =
        strIncludes (strLower (strTake postData.caption 150)) (strLower tag)) ∧
    (analyzeContent post8a ["#ad must be above the fold"]).results.map (·.passed)
      = [true] ∧
    (analyzeContent post8b ["#ad must be above the fold"]).results.map (·.passed)
      = [false] := by
  refine ⟨?_, by decide, by decide⟩
  intro postData requirement tag hmatch hpos
  have hhash : '#' ∈ requirement.data := by
    unfold hashtagMatch at hmatch
    cases haux : hashtagMatchAux requirement.data with
    | none => rw [haux] at hmatch; simp at hmatch
    | some t => exact hashtagMatchAux_mem _ _ haux
  have hdisp : strIncludes (strLower requirement) "#" = true :=
    lower_contains_hash hhash
  have hcond : (strIncludes (strLower requirement) "above the fold" ||
      strIncludes (strLower requirement) "beginning") = true := by
    rcases hpos with h | h <;> simp [h]
  unfold checkRequirement
  simp only [hdisp, Bool.true_or, if_pos]
  unfold checkHashtagRequirement
  rw [hmatch]
  simp only [hcond, if_pos]
  rfl

/-- Witness for C8's general clause at the concrete pass-case inputs. -/
theorem C8_hashtag_above_the_fold_witness :
    (checkRequirement post8a "#ad must be above the fold").passed =
      strIncludes (strLower (strTake post8a.caption 150)) (strLower "#ad") :=
  C8_hashtag_above_the_fold.1 post8a "#ad must be above the fold" "#ad"
    (by decide) (Or.inl (by decide))

/-! ## Claim C6 -/

theorem infix_extend_left {x a b : List Char} (h : x <:+: b) : x <:+: a ++ b :=
  h.trans (List.suffix_append a b).isInfix

theorem infix_extend_right {x a b : List Char} (h : x <:+: a) : x <:+: a ++ b :=
  h.trans (List.prefix_append a b).isInfix

set_option maxRecDepth 8192 in
/-- C6 counterexample: the image-post prompt renders the transcript label in
markdown bold, `**TRANSCRIPT:** Not applicable for image content`, so the
claim's quoted plain string `"TRANSCRIPT: Not applicable for image content"`
is *not* a substring of the prompt. -/
theorem C6_counterexample :
    pdImg.mediaType = .image ∧
    strIncludes (buildUserPrompt pdImg ["req"])
      "TRANSCRIPT: Not applicable for image content" = false ∧
    strIncludes (buildUserPrompt pdImg ["req"])
      "**TRANSCRIPT:** Not applicable for image content" = true := by
  decide

/-- C6 (amended): the transcript section is a three-way exclusive branch.
For an image post it is exactly `**TRANSCRIPT:** Not applicable for image
content` (so the prompt contains that string, and the section never contains
the timestamps heading); for a video post with `timestampedTranscript` the
section is the `**TRANSCRIPT (with timestamps):**` view with one
`[MM:SS-MM:SS]: ...` line per segment, each contained in the prompt; for a
video post without timestamps the section is the raw transcript under a
plain `**TRANSCRIPT:**` heading — the prompt contains the raw transcript,
and the section adds no `[`-digit timestamp marker and no
`"(with timestamps)"` heading beyond those already inside the
caller-supplied transcript text. -/
theorem C6_transcript_section_branching (postData : InstagramPostData)
    (requirements : List String) :
    buildUserPrompt postData requirements
        = promptHead postData ++ transcriptSection postData ++
          promptTail postData requirements ∧
    (postData.mediaType = .image →
      transcriptSection postData
          = "**TRANSCRIPT:** Not applicable for image content" ∧
      strIncludes (buildUserPrompt postData requirements)
        "**TRANSCRIPT:** Not applicable for image content" = true ∧
      strIncludes (transcriptSection postData)
        "TRANSCRIPT (with timestamps)" = false) ∧
    (∀ tt, postData.mediaType = .video →
      postData.timestampedTranscript = some tt →
      transcriptSection postData
          = "**TRANSCRIPT (with timestamps):**\n" ++
            strJoinSep "\n" (tt.segments.map segmentLine) ++
            "\n\n**Full transcript text:** " ++
            (if postData.transcript == "" then "No transcript available"
             else postData.transcript) ∧
      ∀ seg ∈ tt.segments,
        strIncludes (buildUserPrompt postData requirements) (segmentLine seg)
          = true) ∧
    (postData.mediaType = .video → postData.timestampedTranscript = none →
      transcriptSection postData
          = "**TRANSCRIPT:**\n" ++
            (if postData.transcript == "" then "No transcript available"
             else postData.transcript) ∧
      strIncludes (buildUserPrompt postData requirements) postData.transcript
        = true ∧
      (hasTimestampMarker postData.transcript = false →
        hasTimestampMarker (transcriptSection postData) = false) ∧
      (strIncludes postData.transcript "(with timestamps)" = false →
        strIncludes (transcriptSection postData) "(with timestamps)" = false)) := by
  obtain ⟨cap, mt, murl, tr, tts, tags, alt⟩ := postData
  refine ⟨rfl, ?_, ?_, ?_⟩
  · intro him
    simp only at him
    subst him
    refine ⟨rfl, ?_, by
      show strIncludes "**TRANSCRIPT:** Not applicable for image content"
        "TRANSCRIPT (with timestamps)" = false
      decide⟩
    rw [show buildUserPrompt ⟨cap, .image, murl, tr, tts, tags, alt⟩ requirements
        = promptHead _ ++ transcriptSection ⟨cap, .image, murl, tr, tts, tags, alt⟩ ++
          promptTail _ requirements from rfl]
    apply strIncludes_of_middle
    show _ <:+: (transcriptSection ⟨cap, .image, murl, tr, tts, tags, alt⟩).data
    exact List.infix_refl _
  · intro tt hv hsome
    simp only at hv hsome
    subst hv
    subst hsome
    refine ⟨rfl, ?_⟩
    intro seg hseg
    apply strIncludes_of_middle
    have h1 := mem_strJoinSep_infix "\n" (tt.segments.map segmentLine)
      (segmentLine seg) (List.mem_map_of_mem _ hseg)
    show (segmentLine seg).data <:+:
      ("**TRANSCRIPT (with timestamps):**\n" ++
        strJoinSep "\n" (tt.segments.map segmentLine) ++
        "\n\n**Full transcript text:** " ++
        (if tr == "" then "No transcript available" else tr)).data
    simp only [String.data_append]
    exact infix_extend_right (infix_extend_right (infix_extend_left h1))
  · intro hv hnone
    simp only at hv hnone
    subst hv
    subst hnone
    refine ⟨rfl, ?_, ?_, ?_⟩
    · by_cases htr : tr = ""
      · subst htr
        rfl
      · rw [show buildUserPrompt ⟨cap, .video, murl, tr, none, tags, alt⟩ requirements
            = promptHead _ ++ transcriptSection ⟨cap, .video, murl, tr, none, tags, alt⟩ ++
              promptTail _ requirements from rfl]
        apply strIncludes_of_middle
        show tr.data <:+:
          ("**TRANSCRIPT:**\n" ++
            (if tr == "" then "No transcript available" else tr)).data
        rw [if_neg (by simpa using htr)]
        simp only [String.data_append]
        exact infix_extend_left (List.infix_refl _)
    · intro hm
      show hasMarkerL (("**TRANSCRIPT:**\n" ++
        (if tr == "" then "No transcript available" else tr)).data) = false
      rw [String.data_append, hasMarkerL_append_of_free (by decide)]
      by_cases htr : tr = ""
      · rw [if_pos (by simpa using htr)]
        decide
      · rw [if_neg (by simpa using htr)]
        exact hm
    · intro hw
      show strIncludes ("**TRANSCRIPT:**\n" ++
        (if tr == "" then "No transcript available" else tr))
        "(with timestamps)" = false
      by_cases htr : tr = ""
      · rw [if_pos (by simpa using htr)]
        decide
      · rw [if_neg (by simpa using htr)]
        by_contra hcon
        have hcon2 : strIncludes ("**TRANSCRIPT:**\n" ++ tr)
            "(with timestamps)" = true := by
          cases hx : strIncludes ("**TRANSCRIPT:**\n" ++ tr) "(with timestamps)"
          · exact absurd hx hcon
          · rfl
        have h3 := (strIncludes_iff _ _).mp hcon2
        rw [String.data_append] at h3
        have h4 := infix_append_right_of_head_free (by decide) h3
        have h5 : strIncludes tr "(with timestamps)" = true :=
          (strIncludes_iff _ _).mpr h4
        rw [hw] at h5
        exact absurd h5 (by simp)

set_option maxRecDepth 8192 in
/-- Witness for C6 (amended) at one concrete post per branch. -/
theorem C6_transcript_section_branching_witness :
    strIncludes (buildUserPrompt pdImg ["r"])
      "**TRANSCRIPT:** Not applicable for image content" = true ∧
    strIncludes (buildUserPrompt pdVid ["r"])
      (segmentLine { text := " hello there ", start := 0, «end» := 3661 }) = true ∧
    strIncludes (buildUserPrompt pdVidNoTs ["r"]) pdVidNoTs.transcript = true ∧
    hasTimestampMarker (transcriptSection pdVidNoTs) = false :=
  ⟨((C6_transcript_section_branching pdImg ["r"]).2.1 rfl).2.1,
   ((C6_transcript_section_branching pdVid ["r"]).2.2.1
      { text := "hello there world",
        segments :=
          [{ text := " hello there ", start := 0, «end» := 3661 },
           { text := "world", start := 75, «end» := 80 }] } rfl rfl).2
      { text := " hello there ", start := 0, «end» := 3661 } (by decide),
   ((C6_transcript_section_branching pdVidNoTs ["r"]).2.2.2 rfl rfl).2.1,
   ((C6_transcript_section_branching pdVidNoTs ["r"]).2.2.2 rfl rfl).2.2.1
      (by decide)⟩

/-! ## Main-path lemma for the AI service -/

/-- The AI main path: valid inputs, cache miss, and a validated model
response produce an `aiPowered` report whose score denominator is the number
of input requirements, and the report is stored in the cache under the
canonical key. -/
theorem ai_analyze_ok (fb : Bool) (hash : String → String)
    (pd : InstagramPostData) (requirements : List String)
    (oracle : ℕ → Except String (Option AnalysisResponse))
    (cache : CacheState AIAnalysisReport) (t0 t1 : ℕ)
    (results : List AIAnalysisResult)
    (hne : requirements.isEmpty = false)
    (hblank : requirements.any (fun req => strTrim req == "") = false)
    (hmiss : (cacheGet cache (generateKey hash pd requirements) t1).1 = none)
    (hai : performAIAnalysis oracle = .ok results) :
    AIAnalysisService.analyzeContent fb hash (some pd) requirements oracle cache t0 t1
      = (.ok (aiReport results requirements (t1 - t0)),
         cacheSet (cacheGet cache (generateKey hash pd requirements) t1).2
           (generateKey hash pd requirements)
           (aiReport results requirements (t1 - t0)) t1) := by
  have hpos : 0 < requirements.length := by
    cases requirements
    · simp at hne
    · simp
  have hlen : (sortStrings requirements).length = requirements.length :=
    (sortStrings_perm requirements).length_eq
  unfold generateKey at hmiss ⊢
  simp only [AIAnalysisService.analyzeContent]
  rw [if_neg (by simp [hne]), if_neg (by simp [hblank])]
  simp only [hmiss, hai]
  have hsc : (if 0 < (generateKeyS hash pd requirements).2.2.length
      then jsRound100 ((results.filter (·.passed)).length)
        (generateKeyS hash pd requirements).2.2.length
      else 0) = jsRound100 ((results.filter (·.passed)).length)
        requirements.length := by
    have h2 : (generateKeyS hash pd requirements).2.2.length
        = requirements.length := hlen
    rw [h2, if_pos hpos]
  simp only [gt_iff_lt, hsc, aiReport]

/-! ## Claim C1 -/

/-- C1 counterexample: a validation failure (blank requirement) with
fallback enabled does *not* raise — `validateInputs` sits inside the same
`try` whose catch-all routes to the rule-based fallback, so the call returns
a `rule-based-fallback` report. -/
theorem C1_counterexample :
    (AIAnalysisService.analyzeContent true (fun s => s) (some samplePost)
        ["   "] (fun _ => .error "provider down") emptyCache 0 5).1
      = .ok { results := [], overallScore := 0, aiPowered := false,
              processingTime := 5, model := "rule-based-fallback" } := by
  rfl

/-- C1 (amended): a validation failure is raised directly (wrapped as
`AI analysis failed: <message>`) only when fallback is disabled; with
fallback enabled it is caught like any service error and routed through the
rule-based fallback.  Either way the cache is untouched. -/
theorem C1_validation_failure_routing (hash : String → String)
    (postData : Option InstagramPostData) (requirements : List String)
    (oracle : ℕ → Except String (Option AnalysisResponse))
    (cache : CacheState AIAnalysisReport) (startTime now : ℕ) (msg : String)
    (h : validateInputs postData requirements = some msg) :
    AIAnalysisService.analyzeContent false hash postData requirements oracle
        cache startTime now
      = (.error ("AI analysis failed: " ++ msg), cache) ∧
    AIAnalysisService.analyzeContent true hash postData requirements oracle
        cache startTime now
      = (fallbackAnalysis postData requirements startTime now, cache) := by
  cases postData with
  | none =>
    unfold validateInputs at h
    rw [if_pos (by simp)] at h
    injection h with h
    subst h
    exact ⟨rfl, rfl⟩
  | some pd =>
    by_cases he : requirements.isEmpty = true
    · unfold validateInputs at h
      rw [if_neg (by simp), if_pos he] at h
      injection h with h
      subst h
      constructor
      · simp only [AIAnalysisService.analyzeContent]
        rw [if_pos he]
        rfl
      · simp only [AIAnalysisService.analyzeContent]
        rw [if_pos he]
        rfl
    · by_cases ha : (requirements.any fun req => strTrim req == "") = true
      · unfold validateInputs at h
        rw [if_neg (by simp), if_neg he, if_pos ha] at h
        injection h with h
        subst h
        constructor
        · simp only [AIAnalysisService.analyzeContent]
          rw [if_neg he, if_pos ha]
          rfl
        · simp only [AIAnalysisService.analyzeContent]
          rw [if_neg he, if_pos ha]
          rfl
      · unfold validateInputs at h
        rw [if_neg (by simp), if_neg he, if_neg ha] at h
        exact absurd h (by simp)

/-- Witness for C1 (amended) at a concrete missing-post call. -/
theorem C1_validation_failure_routing_witness :
    AIAnalysisService.analyzeContent false (fun s => s) none ["x"]
        (fun _ => .error "e") emptyCache 0 3
      = (.error ("AI analysis failed: " ++ "Post data is required"), emptyCache) ∧
    AIAnalysisService.analyzeContent true (fun s => s) none ["x"]
        (fun _ => .error "e") emptyCache 0 3
      = (fallbackAnalysis none ["x"] 0 3, emptyCache) :=
  C1_validation_failure_routing (fun s => s) none ["x"] (fun _ => .error "e")
    emptyCache 0 3 "Post data is required" (by decide)

/-! ## Claim C5 -/

/-- C5: after a successful first call stores its report, an identical second
call on the resulting cache (while the entry is unexpired) returns the
stored report — for *every* second-call oracle, so the provider is never
consulted — with only `processingTime` recomputed from the second call's
clock. -/
theorem C5_cache_hit_short_circuit (fb1 fb2 : Bool) (hash : String → String)
    (pd : InstagramPostData) (requirements : List String)
    (oracle1 oracle2 : ℕ → Except String (Option AnalysisResponse))
    (cache : CacheState AIAnalysisReport) (t0 t1 t2 t3 : ℕ)
    (results : List AIAnalysisResult)
    (hne : requirements.isEmpty = false)
    (hblank : requirements.any (fun req => strTrim req == "") = false)
    (hmiss : (cacheGet cache (generateKey hash pd requirements) t1).1 = none)
    (hai : performAIAnalysis oracle1 = .ok results)
    (hfresh : ¬ t3 > t1 + cache.ttlMs) :
    (AIAnalysisService.analyzeContent fb1 hash (some pd) requirements oracle1
        cache t0 t1).1 = .ok (aiReport results requirements (t1 - t0)) ∧
    (AIAnalysisService.analyzeContent fb2 hash (some pd) requirements oracle2
        (AIAnalysisService.analyzeContent fb1 hash (some pd) requirements
          oracle1 cache t0 t1).2 t2 t3).1
      = .ok { aiReport results requirements (t1 - t0) with
              processingTime := t3 - t2 } := by
  have h1 := ai_analyze_ok fb1 hash pd requirements oracle1 cache t0 t1
    results hne hblank hmiss hai
  refine ⟨by rw [h1], ?_⟩
  rw [h1]
  unfold generateKey
  simp only [AIAnalysisService.analyzeContent]
  rw [if_neg (by simp [hne]), if_neg (by simp [hblank])]
  have httl : ((cacheGet cache (generateKeyS hash pd requirements).1 t1).2).ttlMs
      = cache.ttlMs := cacheGet_ttl _ _ _
  have hget := cacheGet_after_set
    ((cacheGet cache (generateKeyS hash pd requirements).1 t1).2)
    ((generateKeyS hash pd requirements).1)
    (aiReport results requirements (t1 - t0)) t1 t3
    (by rw [httl]; exact hfresh)
  unfold generateKey at h1
  simp only [hget]

/-- Witness for C5: the second call succeeds although its provider oracle
always errors. -/
theorem C5_cache_hit_short_circuit_witness :
    (AIAnalysisService.analyzeContent true (fun s => s) (some samplePost)
        ["Must include #ad hashtag"] (fun _ => .error "second call boom")
        (AIAnalysisService.analyzeContent true (fun s => s) (some samplePost)
          ["Must include #ad hashtag"] (fun _ => .ok (some okResponse))
          emptyCache 0 10).2 20 30).1
      = .ok { aiReport okResponse.results ["Must include #ad hashtag"] 10 with
              processingTime := 10 } :=
  (C5_cache_hit_short_circuit true true (fun s => s) samplePost
      ["Must include #ad hashtag"]
      (fun _ => .ok (some okResponse)) (fun _ => .error "second call boom")
      emptyCache 0 10 20 30 okResponse.results
      (by decide) (by decide) rfl
      (by simp [performAIAnalysis, callOpenAIWithRetry, schemaValidate,
        okResponse])
      (by decide)).2

/-! ## Claim C10 -/

/-- C10: the AI path's score denominator is the number of input
requirements, not the number of validated results: the report's
`overallScore` is `round(100 · passed / requirements.length)` over the
model's validated results, the schema accepts a response whose results count
differs from the requirements count (`overResponse` has 3 results), and with
3 passing results against 1 requirement the score is 300 — the 0–100 bound
is not enforced. -/
theorem C10_ai_score_denominator (fb : Bool) (hash : String → String)
    (pd : InstagramPostData) (requirements : List String)
    (oracle : ℕ → Except String (Option AnalysisResponse))
    (cache : CacheState AIAnalysisReport) (t0 t1 : ℕ)
    (results : List AIAnalysisResult)
    (hne : requirements.isEmpty = false)
    (hblank : requirements.any (fun req => strTrim req == "") = false)
    (hmiss : (cacheGet cache (generateKey hash pd requirements) t1).1 = none)
    (hai : performAIAnalysis oracle = .ok results) :
    (AIAnalysisService.analyzeContent fb hash (some pd) requirements oracle
        cache t0 t1).1
      = .ok { results := results,
              overallScore := jsRound100 ((results.filter (·.passed)).length)
                requirements.length,
              aiPowered := true, processingTime := t1 - t0,
              model := AI_CONFIG_model } ∧
    schemaValidate overResponse = true ∧
    overResponse.results.length = 3 ∧
    (Except.map (fun r => r.overallScore)
        (AIAnalysisService.analyzeContent true (fun s => s) (some samplePost)
          ["Must include #ad hashtag"]
          (fun _ => .ok (some overResponse)) emptyCache 0 1).1)
      = .ok 300 ∧
    100 < 300 := by
  refine ⟨?_, by simp [schemaValidate, overResponse], by decide, ?_, by omega⟩
  · rw [ai_analyze_ok fb hash pd requirements oracle cache t0 t1 results hne
      hblank hmiss hai]
    rfl
  · have hsc : (aiReport overResponse.results ["Must include #ad hashtag"]
        1).overallScore = 300 := by decide
    rw [ai_analyze_ok true (fun s => s) samplePost ["Must include #ad hashtag"]
      (fun _ => .ok (some overResponse)) emptyCache 0 1 overResponse.results
      (by decide) (by decide) rfl
      (by simp [performAIAnalysis, callOpenAIWithRetry, schemaValidate,
        overResponse])]
    exact congrArg Except.ok hsc

/-- Witness for C10 at a concrete single-requirement run. -/
theorem C10_ai_score_denominator_witness :
    (AIAnalysisService.analyzeContent true (fun s => s) (some samplePost)
        ["Must include #ad hashtag"] (fun _ => .ok (some okResponse))
        emptyCache 0 1).1
      = .ok { results := okResponse.results, overallScore := jsRound100 1 1,
              aiPowered := true, processingTime := 1,
              model := AI_CONFIG_model } :=
  (C10_ai_score_denominator true (fun s => s) samplePost
      ["Must include #ad hashtag"] (fun _ => .ok (some okResponse))
      emptyCache 0 1 okResponse.results
      (by decide) (by decide) rfl
      (by simp [performAIAnalysis, callOpenAIWithRetry, schemaValidate,
        okResponse])).1
